import Mathlib

/-!
# Referral loop closure — verification of the matching/consent-routing core

A shallow embedding of the referral-matching and consent-routing pipeline:

* `src/matching/fuzzy.ts` — `normalizeName`, `levenshteinDistance`,
  `tokenJaccard`, `fuzzyNameMatch`;
* `src/matching/engine.ts` — `matchEncounterToReferrals`;
* `src/portal/routing.ts` — `updateTaskForEncounter`, `checkOverdueTasks`,
  `buildMatchContext`, `processEncounter`;
* `src/store.ts` — `resolvePatientId`, `getOpenReferrals`,
  `getSharingPreference` and the in-memory stores.

Modelling conventions:

* JavaScript numbers are embedded as exact rationals (`ℚ`); the weights and
  thresholds of the scorer are small decimal literals, so threshold
  comparisons in `ℚ` mirror the source.
* JavaScript strings are Lean `String`s; `<`/`≤` on `String` models the
  lexicographic code-unit comparison JS uses on ISO-timestamp strings.
* JS `Map` (insertion-ordered, `set` replaces in place) is an association
  list; `Map.set` keeps the original position of an existing key.
* JS truthiness on optional strings (`""` and `undefined` are both falsy)
  is modelled by `truthyStr`.
* `Date.now()` / `new Date().toISOString()` are passed in as an explicit
  `now : String` parameter.
* `Array.prototype.sort` with the comparator `(a, b) => b.score - a.score`
  is the stable descending-by-score sort (JS sort is stable per ES2019);
  it is embedded as a stable insertion sort.
-/

/-! ## JS string helpers -/

/-- JS truthiness for `string | undefined`: the empty string and `undefined`
are both falsy. -/
def truthyStr : Option String → Option String
  | some s => if s = "" then none else some s
  | none => none

/-- Remove the first occurrence of `pat` from a list of characters
(JS `String.prototype.replace` with a string pattern and empty replacement). -/
def listReplaceFirst (pat : List Char) : List Char → List Char
  | [] => []
  | c :: rest =>
    if pat.isPrefixOf (c :: rest) then (c :: rest).drop pat.length
    else c :: listReplaceFirst pat rest

/-- JS `s.replace(pat, "")`: removes the first occurrence of `pat`. -/
def replaceFirst (pat s : String) : String :=
  ⟨listReplaceFirst pat.data s.data⟩

/-- JS `toLowerCase()` (character-wise lowercasing). -/
def jsToLower (s : String) : String :=
  ⟨s.data.map Char.toLower⟩

/-- Accumulator pass of `splitWs`: `cur` holds the current token reversed. -/
def splitWsChars : List Char → List Char → List String
  | [], cur => if cur.isEmpty then [] else [String.mk cur.reverse]
  | c :: rest, cur =>
    if c.isWhitespace then
      (if cur.isEmpty then [] else [String.mk cur.reverse]) ++ splitWsChars rest []
    else splitWsChars rest (c :: cur)

/-- JS `s.split(/\s+/).filter(Boolean)`: whitespace-run tokenization. -/
def splitWs (s : String) : List String :=
  splitWsChars s.data []

/-- JS `<` on strings: lexicographic comparison by code unit. -/
def lexLt : List Char → List Char → Bool
  | [], [] => false
  | [], _ :: _ => true
  | _ :: _, [] => false
  | a :: as, b :: bs =>
    if a.val < b.val then true else if b.val < a.val then false else lexLt as bs

/-- JS `a < b` on strings. -/
def strLt (a b : String) : Bool :=
  lexLt a.data b.data

/-- JS `a <= b` on strings (total order: `a <= b` iff not `b < a`). -/
def strLe (a b : String) : Bool :=
  !(strLt b a)

/-! ## Fuzzy name matcher (`src/matching/fuzzy.ts`) -/

/-- Common healthcare organization suffixes to strip during normalization. -/
def STRIP_TERMS : List String :=
  ["llc", "inc", "corp", "corporation", "associates", "assoc",
   "group", "medical", "med", "center", "centre", "clinic",
   "pa", "pc", "md", "do", "dds", "dpm", "healthcare",
   "health", "services", "practice", "partners", "pllc", "ltd"]

/-- The punctuation class of the regex `[.'',\-\/\\()]` in `normalizeName`. -/
def isPunct (c : Char) : Bool :=
  c = '.' ∨ c = '\'' ∨ c = ',' ∨ c = '-' ∨ c = '/' ∨ c = '\\' ∨ c = '(' ∨ c = ')'

/-- `normalizeName` from `src/matching/fuzzy.ts`: lowercase, replace
punctuation with spaces, tokenize, drop stop-list terms (keeping the original
tokens if that would empty the list), re-join with single spaces. -/
def normalizeName (name : String) : String :=
  let n : String := ⟨(jsToLower name).data.map (fun c => if isPunct c then ' ' else c)⟩
  let tokens := splitWs n
  let filtered := tokens.filter (fun t => ¬ STRIP_TERMS.contains t)
  String.intercalate " " (if filtered.length > 0 then filtered else tokens)

/-- One row of the Levenshtein DP: given the diagonal entry `diag`
(`prev[j-1]`), the rest of the previous row from index `j` on (`prevTail`),
and the entry to the left (`curr[j-1]`), produce `curr[j], curr[j+1], ...`. -/
def levRowAux (ai : Char) : List Char → ℕ → List ℕ → ℕ → List ℕ
  | [], _, _, _ => []
  | bj :: bs, diag, prevTail, left =>
    let up := prevTail.headD 0
    let cur := if ai = bj then diag else 1 + min diag (min up left)
    cur :: levRowAux ai bs up prevTail.tail cur

/-- The row loop of the DP: fold the rows for `a[0], a[1], ...` starting from
row `i`. -/
def levRows (bs : List Char) : List Char → List ℕ → ℕ → List ℕ
  | [], prev, _ => prev
  | ai :: as, prev, i =>
    levRows bs as (i :: levRowAux ai bs (prev.headD 0) prev.tail i) (i + 1)

/-- `levenshteinDistance` from `src/matching/fuzzy.ts`: the classic
single-row dynamic program. -/
def levenshteinDistance (a b : String) : ℕ :=
  let m := a.length
  let n := b.length
  if m = 0 then n
  else if n = 0 then m
  else (levRows b.data a.data (List.range (n + 1)) 1).getLastD 0

/-- `tokenJaccard` from `src/matching/fuzzy.ts`: Jaccard similarity on the
whitespace-token sets (JS `Set` dedupes; only `.size` and `.has` are used, so
a `Finset` is faithful). -/
def tokenJaccard (a b : String) : ℚ :=
  let setA := (splitWs a).toFinset
  let setB := (splitWs b).toFinset
  if setA.card = 0 ∧ setB.card = 0 then 0
  else
    let inter := setA.filter (fun x => x ∈ setB)
    let union := setA ∪ setB
    if union.card = 0 then 0 else (inter.card : ℚ) / (union.card : ℚ)

/-- `fuzzyNameMatch` from `src/matching/fuzzy.ts`: normalize both names,
short-circuit to 1.0 on equality, else the max of Jaccard and normalized
Levenshtein similarity. -/
def fuzzyNameMatch (a b : String) : ℚ :=
  let na := normalizeName a
  let nb := normalizeName b
  if na = nb then 1.0
  else
    let jaccard := tokenJaccard na nb
    let maxLen := max na.length nb.length
    let levenSim : ℚ :=
      if maxLen = 0 then 1 else 1 - (levenshteinDistance na nb : ℚ) / (maxLen : ℚ)
    max jaccard levenSim

namespace Loop

/-! ## FHIR data model (`src/fhir/types.ts`)

Fields never read by the embedded core (e.g. `telecom`, `address`, `note`)
are omitted; constant `resourceType` tags are omitted. -/

structure Identifier where
  system : String
  value : String
  deriving DecidableEq, Repr

structure Coding where
  system : Option String
  code : String
  display : Option String
  deriving DecidableEq, Repr

structure CodeableConcept where
  coding : Option (List Coding)
  text : Option String
  deriving DecidableEq, Repr

structure Reference where
  reference : String
  display : Option String
  identifier : Option Identifier
  deriving DecidableEq, Repr

structure Period where
  start : Option String
  «end» : Option String
  deriving DecidableEq, Repr

/-- FHIR `Extension`: recursive because of the nested `extension` list used
by the referral-target-identifiers structure. -/
inductive Extension where
  | mk (url : String) (valueCode : Option String) (valueString : Option String)
       (valueCoding : Option Coding) (extension : Option (List Extension))
  deriving Repr

def Extension.url : Extension → String
  | .mk u _ _ _ _ => u

def Extension.valueString : Extension → Option String
  | .mk _ _ vs _ _ => vs

def Extension.valueCoding : Extension → Option Coding
  | .mk _ _ _ vc _ => vc

def Extension.extension : Extension → Option (List Extension)
  | .mk _ _ _ _ es => es

structure Organization where
  id : String
  identifier : Option (List Identifier)
  name : String
  deriving Repr

structure Practitioner where
  id : String
  identifier : Option (List Identifier)
  deriving Repr

structure PractitionerRole where
  id : String
  practitioner : Reference
  organization : Reference
  specialty : Option (List CodeableConcept)
  deriving Repr

structure ServiceRequest where
  id : String
  status : String
  subject : Reference
  requester : Option Reference
  occurrencePeriod : Option Period
  extension : Option (List Extension)
  deriving Repr

structure TaskOutput where
  type : CodeableConcept
  valueReference : Option Reference
  deriving DecidableEq, Repr

/-- The shape of `Task.restriction`: `{ period?: Period }`. -/
structure TaskRestriction where
  period : Option Period
  deriving DecidableEq, Repr

structure Task where
  id : String
  status : String
  focus : Option Reference
  «for» : Option Reference
  requester : Option Reference
  authoredOn : Option String
  lastModified : Option String
  restriction : Option TaskRestriction
  businessStatus : Option CodeableConcept
  output : Option (List TaskOutput)
  deriving DecidableEq, Repr

structure EncounterParticipant where
  individual : Option Reference
  deriving DecidableEq, Repr

structure Encounter where
  id : String
  status : String
  «class» : Coding
  type : Option (List CodeableConcept)
  subject : Reference
  participant : Option (List EncounterParticipant)
  period : Option Period
  reasonCode : Option (List CodeableConcept)
  serviceProvider : Option Reference
  deriving DecidableEq, Repr

structure SharingPreference where
  patientId : String
  physicianRef : String
  mode : String
  grantedAt : String
  active : Bool
  deriving DecidableEq, Repr

structure RoutedEvent where
  id : String
  encounterId : String
  patientId : String
  physicianRef : String
  taskId : Option String
  matchScore : Option ℚ
  routedAt : String
  encounter : Encounter
  deriving DecidableEq, Repr

/-! ## In-memory store (`src/store.ts`)

JS `Map`s are insertion-ordered association lists; `Map.set` replaces the
value of an existing key in place. Stores never read by the embedded core
(patients, notifications, onboarding, SSE clients) are omitted. -/

/-- `Map.get`. -/
def alistGet {α : Type} (m : List (String × α)) (k : String) : Option α :=
  (m.find? (fun p => p.1 = k)).map (·.2)

/-- `Map.set`: replace in place if the key exists, else append. -/
def alistSet {α : Type} (m : List (String × α)) (k : String) (v : α) : List (String × α) :=
  match m with
  | [] => [(k, v)]
  | (k', v') :: rest => if k' = k then (k, v) :: rest else (k', v') :: alistSet rest k v

structure BrokerSession where
  brokerId : Option String
  sourceId : Option String
  accessToken : Option String
  subscriptionId : Option String
  patientId : String
  deriving Repr

structure Store where
  practitioners : List (String × Practitioner)
  organizations : List (String × Organization)
  practitionerRoles : List (String × PractitionerRole)
  serviceRequests : List (String × ServiceRequest)
  tasks : List (String × Task)
  encounters : List (String × Encounter)
  sharingPreferences : List (String × SharingPreference)
  routedEvents : List RoutedEvent
  brokerSessions : List (String × BrokerSession)

/-- `resolvePatientId` from `src/store.ts`: reverse lookup over broker
sessions (`session.sourceId === ehrPatientId`), falling back to the EHR id. -/
def resolvePatientId (s : Store) (ehrPatientId : String) : String :=
  match s.brokerSessions.find? (fun p => p.2.sourceId = some ehrPatientId) with
  | some p => p.1
  | none => ehrPatientId

/-- An open referral: a `ServiceRequest` paired with its tracking `Task`
(`OpenReferral` in `src/matching/engine.ts`). -/
structure OpenReferral where
  serviceRequest : ServiceRequest
  task : Task
  deriving Repr

/-- `getOpenReferrals` from `src/store.ts`: tasks for the patient whose
status is not completed/cancelled/failed, paired with their focused
`ServiceRequest` (skipped when the lookup fails). -/
def getOpenReferrals (s : Store) (patientId : String) : List OpenReferral :=
  s.tasks.filterMap (fun p =>
    let task := p.2
    if (task.«for»).map (·.reference) = some ("Patient/" ++ patientId) ∧
        task.status ≠ "completed" ∧ task.status ≠ "cancelled" ∧ task.status ≠ "failed" then
      match alistGet s.serviceRequests
          ((task.focus.map (fun f => replaceFirst "ServiceRequest/" f.reference)).getD "") with
      | some sr => some ⟨sr, task⟩
      | none => none
    else none)

/-- `getSharingPreference` from `src/store.ts`: keyed by
`patientId + ":" + physicianRef`. -/
def getSharingPreference (s : Store) (patientId physicianRef : String) : Option SharingPreference :=
  alistGet s.sharingPreferences (patientId ++ ":" ++ physicianRef)

/-! ## Referral match scorer (`src/matching/engine.ts`) -/

/-- Per-signal contribution breakdown of a match result. -/
structure MatchSignals where
  orgNpi : Bool
  orgName : ℚ
  practitionerNpi : Bool
  specialty : Bool
  dateInWindow : Bool
  deriving DecidableEq, Repr

structure MatchResult where
  serviceRequestId : String
  taskId : String
  score : ℚ
  confidence : String
  signals : MatchSignals
  deriving DecidableEq, Repr

/-- The optional resolver functions of the lookup context. -/
structure MatchContext where
  orgNpiLookup : Option (String → Option String)
  practitionerNpiLookup : Option (String → Option String)
  specialtyLookup : Option (String → Option String)

/-- The target identifiers extracted from a referral's
`referral-target-identifiers` extension. -/
structure TargetIdentifiers where
  orgNpi : Option String
  orgName : Option String
  practitionerNpi : Option String
  specialtyCode : Option String
  deriving Repr

/-- `getTargetIdentifiers` from `src/matching/engine.ts`. -/
def getTargetIdentifiers (sr : ServiceRequest) : TargetIdentifiers :=
  let targetExt := sr.extension.bind (fun exts =>
    exts.find? (fun e =>
      e.url = "http://example.org/fhir/StructureDefinition/referral-target-identifiers"))
  match targetExt.bind (·.extension) with
  | none => ⟨none, none, none, none⟩
  | some sub =>
    { orgNpi := ((sub.find? (fun e => e.url = "organizationNpi")).bind (·.valueString)),
      orgName := ((sub.find? (fun e => e.url = "organizationName")).bind (·.valueString)),
      practitionerNpi := ((sub.find? (fun e => e.url = "practitionerNpi")).bind (·.valueString)),
      specialtyCode := (((sub.find? (fun e => e.url = "specialty")).bind (·.valueCoding)).map (·.code)) }

/-- Stable insertion into a descending-by-score list: an element goes after
every element whose score is `≥` its own. -/
def insertByScore (r : MatchResult) : List MatchResult → List MatchResult
  | [] => [r]
  | x :: xs => if r.score ≤ x.score then x :: insertByScore r xs else r :: x :: xs

/-- `results.sort((a, b) => b.score - a.score)`: the stable
descending-by-score sort. -/
def sortByScoreDesc (l : List MatchResult) : List MatchResult :=
  l.foldl (fun acc x => insertByScore x acc) []

/-- The tail of the scoring loop: keep the result only when the score meets
the 0.10 minimum threshold, assigning the confidence tier from the score. -/
def finishScore (srId taskId : String) (score : ℚ) (signals : MatchSignals) :
    Option MatchResult :=
  if score ≥ 0.10 then
    some
      { serviceRequestId := srId, taskId := taskId, score := score,
        confidence :=
          if score ≥ 0.70 then "high" else if score ≥ 0.40 then "medium" else "low",
        signals := signals }
  else none

/-- The per-referral body of the scoring loop of `matchEncounterToReferrals`:
`none` when the referral is skipped (no target identifiers) or its score
falls below the 0.10 minimum threshold. -/
def scoreReferral (encOrgNpi : Option String) (encOrgName : String)
    (encPractNpi : Option String) (encSpecialty : Option String)
    (encDate : Option String) (referral : OpenReferral) : Option MatchResult :=
  let targets := getTargetIdentifiers referral.serviceRequest
  if truthyStr targets.orgNpi = none ∧ truthyStr targets.orgName = none ∧
      truthyStr targets.practitionerNpi = none then none
  else
    let orgNpiHit :=
      match truthyStr targets.orgNpi, truthyStr encOrgNpi with
      | some t, some e => t = e
      | _, _ => false
    let orgNameSim : ℚ :=
      match truthyStr targets.orgName, truthyStr (some encOrgName) with
      | some t, some _ => fuzzyNameMatch t encOrgName
      | _, _ => 0
    let orgNameActive :=
      (truthyStr targets.orgName).isSome ∧ (truthyStr (some encOrgName)).isSome
    let practNpiHit :=
      match truthyStr targets.practitionerNpi, truthyStr encPractNpi with
      | some t, some e => t = e
      | _, _ => false
    let specialtyHit :=
      match truthyStr targets.specialtyCode, truthyStr encSpecialty with
      | some t, some e => t = e
      | _, _ => false
    let dateHit :=
      match truthyStr encDate, referral.serviceRequest.occurrencePeriod with
      | some d, some window =>
        (match truthyStr window.start with
         | some ws => strLe ws d
         | none => true) &&
        (match truthyStr window.«end» with
         | some we => strLe d we
         | none => true)
      | _, _ => false
    let score : ℚ :=
      (if orgNpiHit then 0.35 else 0) +
      (if orgNameActive then 0.20 * orgNameSim else 0) +
      (if practNpiHit then 0.25 else 0) +
      (if specialtyHit then 0.10 else 0) +
      (if dateHit then 0.10 else 0)
    finishScore referral.serviceRequest.id referral.task.id score
      { orgNpi := orgNpiHit, orgName := if orgNameActive then orgNameSim else 0,
        practitionerNpi := practNpiHit, specialty := specialtyHit,
        dateInWindow := dateHit }

/-- `matchEncounterToReferrals` from `src/matching/engine.ts`. -/
def matchEncounterToReferrals (encounter : Encounter)
    (openReferrals : List OpenReferral) (context : MatchContext) : List MatchResult :=
  match encounter.serviceProvider with
  | none => []
  | some sp =>
    let encOrgRef := sp.reference
    let encOrgName := sp.display.getD ""
    let encOrgNpi :=
      match truthyStr (some encOrgRef) with
      | some r => context.orgNpiLookup.bind (fun f => f r)
      | none => none
    let encPractRef :=
      ((encounter.participant.bind List.head?).bind (·.individual)).map (·.reference)
    let participantId :=
      ((encounter.participant.bind List.head?).bind (·.individual)).bind (·.identifier)
    let embeddedNpi :=
      match participantId with
      | some pid => if pid.system = "http://hl7.org/fhir/sid/us-npi" then some pid.value else none
      | none => none
    let encPractNpi :=
      match truthyStr (match truthyStr encPractRef with
                       | some r => context.practitionerNpiLookup.bind (fun f => f r)
                       | none => none) with
      | some v => some v
      | none => embeddedNpi
    let encSpecialty :=
      match truthyStr encPractRef with
      | some r => context.specialtyLookup.bind (fun f => f r)
      | none => none
    let encDate := encounter.period.bind (·.start)
    sortByScoreDesc
      (openReferrals.filterMap
        (scoreReferral encOrgNpi encOrgName encPractNpi encSpecialty encDate))

/-! ## Consent + routing + task lifecycle (`src/portal/routing.ts`) -/

/-- `buildMatchContext` from `src/portal/routing.ts`: lookup context backed
by the organization / practitioner / practitioner-role stores. -/
def buildMatchContext (s : Store) : MatchContext :=
  { orgNpiLookup := some (fun ref =>
      ((alistGet s.organizations (replaceFirst "Organization/" ref)).bind (fun org =>
        org.identifier.bind (fun ids =>
          ids.find? (fun i => i.system = "http://hl7.org/fhir/sid/us-npi")))).map (·.value)),
    practitionerNpiLookup := some (fun ref =>
      ((alistGet s.practitioners (replaceFirst "Practitioner/" ref)).bind (fun pract =>
        pract.identifier.bind (fun ids =>
          ids.find? (fun i => i.system = "http://hl7.org/fhir/sid/us-npi")))).map (·.value)),
    specialtyLookup := some (fun ref =>
      match s.practitionerRoles.find? (fun p => p.2.practitioner.reference = ref) with
      | some p =>
        (((p.2.specialty.bind List.head?).bind (fun cc => cc.coding)).bind List.head?).map (·.code)
      | none => none) }

/-- A coding of the referral-tracking-status code system. -/
def trackingStatus (code display : String) : CodeableConcept :=
  { coding := some
      [{ system := some "http://example.org/fhir/CodeSystem/referral-tracking-status",
         code := code, display := some display }],
    text := none }

/-- The mutation `updateTaskForEncounter` applies to a non-terminal task:
`lastModified` is set first, then the encounter status selects the branch
(unhandled statuses change nothing further). -/
def applyEncounterToTask (task : Task) (encounter : Encounter) (now : String) : Task :=
  let task1 := { task with lastModified := some now }
  if encounter.status = "planned" then
    { task1 with status := "in-progress",
                 businessStatus := some (trackingStatus "appointment-scheduled" "Appointment Scheduled") }
  else if encounter.status = "in-progress" ∨ encounter.status = "arrived" ∨
      encounter.status = "triaged" then
    { task1 with status := "in-progress",
                 businessStatus := some (trackingStatus "encounter-in-progress" "Encounter In Progress") }
  else if encounter.status = "finished" then
    { task1 with status := "completed",
                 businessStatus := some (trackingStatus "loop-closed" "Loop Closed"),
                 output := some ((task1.output.getD []) ++
                   [{ type := { coding := none, text := some "Matched Encounter" },
                      valueReference := some
                        { reference := "Encounter/" ++ encounter.id,
                          display := some (encounter.«class».code ++ " encounter"),
                          identifier := none } }]) }
  else task1

/-- `updateTaskForEncounter` from `src/portal/routing.ts`: no-op when the
task is missing or already `completed`/`failed`, else mutate it in the store
(the `_matchResult` argument of the source is unused there and omitted). -/
def updateTaskForEncounter (tasks : List (String × Task)) (taskId : String)
    (encounter : Encounter) (now : String) : List (String × Task) :=
  match alistGet tasks taskId with
  | none => tasks
  | some task =>
    if task.status = "completed" ∨ task.status = "failed" then tasks
    else alistSet tasks taskId (applyEncounterToTask task encounter now)

/-- `checkOverdueTasks` from `src/portal/routing.ts`: mark every
non-terminal task whose `restriction.period.end` is strictly before `now` as
`failed`/`overdue`, returning the updated store and the overdue ids in
iteration order. -/
def checkOverdueTasks : List (String × Task) → String → List (String × Task) × List String
  | [], _ => ([], [])
  | (id, task) :: rest, now =>
    let r := checkOverdueTasks rest now
    if task.status = "completed" ∨ task.status = "failed" ∨ task.status = "cancelled" then
      ((id, task) :: r.1, r.2)
    else
      match truthyStr ((task.restriction.bind (·.period)).bind (·.«end»)) with
      | some dueDate =>
        if strLt dueDate now then
          ((id, { task with status := "failed",
                            businessStatus := some (trackingStatus "overdue" "Overdue"),
                            lastModified := some now }) :: r.1, id :: r.2)
        else ((id, task) :: r.1, r.2)
      | none => ((id, task) :: r.1, r.2)

/-- JS `score.toFixed(2)` for the non-negative scores that reach the reason
string (float-formatting is abstracted to exact decimal rounding). -/
def toFixed2 (q : ℚ) : String :=
  let n : ℤ := round (q * 100)
  let frac := (n % 100).natAbs
  toString (n / 100) ++ "." ++ (if frac < 10 then "0" else "") ++ toString frac

structure ProcessEncounterResult where
  encounterId : String
  patientId : String
  matchResults : List MatchResult
  bestMatch : Option MatchResult
  routed : Bool
  routedTo : Option String
  taskUpdated : Option String
  reason : String
  deriving Repr

/-- Step 6 of `processEncounter`: the consent decision if/else chain,
factored out of the pipeline for proof structure. -/
def routingDecision (pref : Option SharingPreference) (bestMatch : Option MatchResult) :
    Bool × String :=
  match pref with
  | none => (false, "No active sharing preference")
  | some p =>
    if p.active = false then (false, "No active sharing preference")
    else if p.mode = "all-encounters" then
      (true, "Patient selected \x27share all encounters\x27")
    else if p.mode = "referrals-only" then
      match bestMatch with
      | some bm =>
        (true, "Matched referral " ++ bm.serviceRequestId ++
          " (score: " ++ toFixed2 bm.score ++ ")")
      | none => (false, "No referral match found (referrals-only mode)")
    else (false, "")

/-- The routed-event upsert of step 7: replace the existing event for this
encounter id, or push a new one. -/
def upsertRoutedEvent (events : List RoutedEvent) (event : RoutedEvent) : List RoutedEvent :=
  match events.findIdx? (fun e => e.encounterId = event.encounterId) with
  | some i => events.set i event
  | none => events ++ [event]

/-- `processEncounter` from `src/portal/routing.ts`. `broadcast` calls have
no store effect and are not modelled; the `isUpdate` flag only selects the
broadcast message type. The routed event id `route-${Date.now()}` is
modelled as `"route-" ++ now` (it is never read back). -/
def processEncounter (s : Store) (encounter0 : Encounter) (now : String) :
    Store × ProcessEncounterResult :=
  -- `encounter.subject?.reference?.replace("Patient/", "") || ""`; with
  -- `subject.reference` required by the type, `|| ""` is the identity.
  let rawPatientId := replaceFirst "Patient/" encounter0.subject.reference
  let patientId := resolvePatientId s rawPatientId
  -- normalize the subject reference to the canonical patient id
  let encounter :=
    if patientId ≠ rawPatientId then
      { encounter0 with subject :=
          { reference := "Patient/" ++ patientId, display := none, identifier := none } }
    else encounter0
  -- 1. store the encounter (upsert by id)
  let s1 := { s with encounters := alistSet s.encounters encounter.id encounter }
  -- 3. run the matching engine against open referrals
  let openReferrals := getOpenReferrals s1 patientId
  let context := buildMatchContext s1
  let matchResults := matchEncounterToReferrals encounter openReferrals context
  let bestMatch :=
    match matchResults with
    | [] => none
    | r :: _ => if r.score ≥ 0.70 then some r else none
  -- 4. if matched at the auto-link threshold, update the task (the `if
  -- (bestMatch)` block only ever mutates the tasks map)
  let tasksAfter :=
    match bestMatch with
    | some bm => updateTaskForEncounter s1.tasks bm.taskId encounter now
    | none => s1.tasks
  let s2 := { s1 with tasks := tasksAfter }
  let taskUpdated := bestMatch.map (·.taskId)
  -- 5. referring provider: the first open referral's requester
  let physicianRef :=
    match openReferrals with
    | [] => none
    | r :: _ => (r.serviceRequest.requester).map (·.reference)
  -- 6. sharing preference decides routing
  let pref :=
    match truthyStr physicianRef with
    | some ref => getSharingPreference s2 patientId ref
    | none => none
  let decision := routingDecision pref bestMatch
  -- 7. if routed, upsert the routed event (broadcast not modelled; the `if
  -- (routed && physicianRef)` block only ever mutates the routed-events list)
  let routedEventsAfter :=
    match decision.1, truthyStr physicianRef with
    | true, some pr =>
      upsertRoutedEvent s2.routedEvents
        { id := "route-" ++ now, encounterId := encounter.id, patientId := patientId,
          physicianRef := pr, taskId := bestMatch.map (·.taskId),
          matchScore := bestMatch.map (·.score), routedAt := now,
          encounter := encounter }
    | _, _ => s2.routedEvents
  let s3 := { s2 with routedEvents := routedEventsAfter }
  (s3,
   { encounterId := encounter.id, patientId := patientId, matchResults := matchResults,
     bestMatch := bestMatch, routed := decision.1,
     routedTo := if decision.1 then physicianRef else none,
     taskUpdated := taskUpdated, reason := decision.2 })

/-- Membership test on the routed-events store. -/
def hasRoutedEvent (s : Store) (encounterId : String) : Bool :=
  s.routedEvents.any (fun e => e.encounterId = encounterId)

/-- Iterated `processEncounter`, threading the store. -/
def processTrace (s : Store) : List (Encounter × String) → Store
  | [] => s
  | (e, t) :: rest => processTrace (processEncounter s e t).1 rest

/-- Whether some call of a `processEncounter` trace processes encounter id
`eid` and decides to route it. -/
def traceRoutes (s : Store) (eid : String) : List (Encounter × String) → Bool
  | [] => false
  | (e, t) :: rest =>
    (decide (e.id = eid) && (processEncounter s e t).2.routed) ||
      traceRoutes (processEncounter s e t).1 eid rest

/-! ## Anatomy of `processEncounter`

Named forms of the pipeline's intermediate values; each is definitionally
equal to the corresponding let-binding of `processEncounter` (the stores the
pipeline passes around differ from the input store only in fields the
respective reader ignores). -/

def pipelinePatientId (s : Store) (e : Encounter) : String :=
  resolvePatientId s (replaceFirst "Patient/" e.subject.reference)

def pipelineEncounter (s : Store) (e : Encounter) : Encounter :=
  if pipelinePatientId s e ≠ replaceFirst "Patient/" e.subject.reference then
    { e with subject :=
        { reference := "Patient/" ++ pipelinePatientId s e, display := none, identifier := none } }
  else e

def pipelineMatchResults (s : Store) (e : Encounter) : List MatchResult :=
  matchEncounterToReferrals (pipelineEncounter s e)
    (getOpenReferrals s (pipelinePatientId s e)) (buildMatchContext s)

def pipelineBestMatch (s : Store) (e : Encounter) : Option MatchResult :=
  match pipelineMatchResults s e with
  | [] => none
  | r :: _ => if r.score ≥ 0.70 then some r else none

def pipelinePhysicianRef (s : Store) (e : Encounter) : Option String :=
  match getOpenReferrals s (pipelinePatientId s e) with
  | [] => none
  | r :: _ => (r.serviceRequest.requester).map (·.reference)

def pipelinePref (s : Store) (e : Encounter) : Option SharingPreference :=
  match truthyStr (pipelinePhysicianRef s e) with
  | some ref => getSharingPreference s (pipelinePatientId s e) ref
  | none => none

def pipelineDecision (s : Store) (e : Encounter) : Bool × String :=
  routingDecision (pipelinePref s e) (pipelineBestMatch s e)

def pipelineTasks (s : Store) (e : Encounter) (now : String) : List (String × Task) :=
  match pipelineBestMatch s e with
  | some bm => updateTaskForEncounter s.tasks bm.taskId (pipelineEncounter s e) now
  | none => s.tasks

def pipelineRoutedEvents (s : Store) (e : Encounter) (now : String) : List RoutedEvent :=
  match (pipelineDecision s e).1, truthyStr (pipelinePhysicianRef s e) with
  | true, some pr =>
    upsertRoutedEvent s.routedEvents
      { id := "route-" ++ now, encounterId := (pipelineEncounter s e).id,
        patientId := pipelinePatientId s e, physicianRef := pr,
        taskId := (pipelineBestMatch s e).map (·.taskId),
        matchScore := (pipelineBestMatch s e).map (·.score), routedAt := now,
        encounter := pipelineEncounter s e }
  | _, _ => s.routedEvents

/-! ## Concrete fixtures

Mirrors of the `seedTestData()` fixtures of the repository's
`referral-lifecycle`/`routing` test suites, used as witnesses. -/

def npiSystem : String := "http://hl7.org/fhir/sid/us-npi"

def fixtureTargets : Extension :=
  .mk "http://example.org/fhir/StructureDefinition/referral-target-identifiers" none none none
    (some [ .mk "organizationNpi" none (some "1122334455") none none,
            .mk "organizationName" none (some "Valley Cardiology") none none,
            .mk "practitionerNpi" none (some "9876543210") none none,
            .mk "specialty" none none
              (some ⟨some "http://nucc.org/provider-taxonomy", "207RC0000X",
                     some "Cardiovascular Disease"⟩) none ])

def fixtureSR : ServiceRequest :=
  { id := "referral-001", status := "active",
    subject := ⟨"Patient/patient-001", none, none⟩,
    requester := some ⟨"Practitioner/dr-smith", some "Dr. Robert Smith", none⟩,
    occurrencePeriod := some ⟨some "2026-02-01", some "2026-04-01"⟩,
    extension := some [fixtureTargets] }

def fixtureTask : Task :=
  { id := "task-001", status := "requested",
    focus := some ⟨"ServiceRequest/referral-001", none, none⟩,
    «for» := some ⟨"Patient/patient-001", none, none⟩,
    requester := some ⟨"Practitioner/dr-smith", some "Dr. Robert Smith", none⟩,
    authoredOn := some "2026-02-01T10:30:00Z",
    lastModified := some "2026-02-01T10:30:00Z",
    restriction := some ⟨some ⟨none, some "2026-04-01"⟩⟩,
    businessStatus := some (trackingStatus "awaiting-scheduling" "Awaiting Scheduling"),
    output := some [] }

def fixtureStore : Store :=
  { practitioners := [("dr-smith", ⟨"dr-smith", some [⟨npiSystem, "1234567890"⟩]⟩),
                      ("dr-johnson", ⟨"dr-johnson", some [⟨npiSystem, "9876543210"⟩]⟩)],
    organizations :=
      [("org-valley", ⟨"org-valley", some [⟨npiSystem, "1122334455"⟩], "Valley Cardiology"⟩)],
    practitionerRoles := [("role-cardio",
      ⟨"role-cardio", ⟨"Practitioner/dr-johnson", some "Dr. Sarah Johnson", none⟩,
       ⟨"Organization/org-valley", some "Valley Cardiology", none⟩,
       some [⟨some [⟨some "http://nucc.org/provider-taxonomy", "207RC0000X",
                     some "Cardiovascular Disease"⟩], none⟩]⟩)],
    serviceRequests := [("referral-001", fixtureSR)],
    tasks := [("task-001", fixtureTask)],
    encounters := [],
    sharingPreferences := [("patient-001:Practitioner/dr-smith",
      ⟨"patient-001", "Practitioner/dr-smith", "referrals-only", "2026-02-10", true⟩)],
    routedEvents := [],
    brokerSessions := [] }

def fixtureEncounter : Encounter :=
  { id := "enc-1", status := "planned",
    «class» := ⟨some "http://terminology.hl7.org/CodeSystem/v3-ActCode", "AMB", some "ambulatory"⟩,
    type := none,
    subject := ⟨"Patient/patient-001", none, none⟩,
    participant := some [⟨some ⟨"Practitioner/dr-johnson", some "Dr. Sarah Johnson", none⟩⟩],
    period := some ⟨some "2026-02-15T09:00:00Z", none⟩,
    reasonCode := none,
    serviceProvider := some ⟨"Organization/org-valley", some "Valley Cardiology", none⟩ }

def fixtureFinished : Encounter :=
  { fixtureEncounter with id := "enc-2", status := "finished" }

def fixtureCancelled : Encounter :=
  { fixtureEncounter with id := "enc-3", status := "cancelled" }

def fixtureNoProvider : Encounter :=
  { fixtureEncounter with id := "enc-4", serviceProvider := none }

def fixtureDoneTask : Task :=
  { fixtureTask with status := "completed" }

def fixtureOverdueTask : Task :=
  { fixtureTask with restriction := some ⟨some ⟨none, some "2020-01-01"⟩⟩ }

/-- A store whose patient has no open referrals but does hold an active
all-encounters sharing preference. -/
def fixtureStoreNoReferrals : Store :=
  { fixtureStore with
    tasks := [],
    sharingPreferences := [("patient-001:Practitioner/dr-smith",
      ⟨"patient-001", "Practitioner/dr-smith", "all-encounters", "2026-02-10", true⟩)] }

/-- A store with a broker session mapping the EHR patient id
`mercy-a1b2c3d` to the canonical `patient-001`. -/
def fixtureStoreBroker : Store :=
  { fixtureStore with
    brokerSessions :=
      [("patient-001", ⟨some "broker-1", some "mercy-a1b2c3d", some "tok", some "sub-1",
                        "patient-001"⟩)] }

/-- An encounter delivered under the EHR's own patient id, with a
`subject.display` that canonicalization must drop. -/
def fixtureEhrEncounter : Encounter :=
  { fixtureEncounter with
    id := "enc-5",
    subject := ⟨"Patient/mercy-a1b2c3d", some "Alice M Rodriguez", none⟩ }

/-- The seed fixtures' single open referral. -/
def fixtureOpenReferral : OpenReferral :=
  { serviceRequest := fixtureSR, task := fixtureTask }

/-- The single match result the scorer produces on the seed fixtures: every
signal fires, so the score is exactly 1. -/
def fixtureMatchResult : MatchResult :=
  { serviceRequestId := "referral-001", taskId := "task-001", score := 1,
    confidence := "high",
    signals := { orgNpi := true, orgName := 1, practitionerNpi := true,
                 specialty := true, dateInWindow := true } }

/-! # Theorems -/

/-! ## Store lemmas -/

theorem alistGet_alistSet_self {α : Type} (m : List (String × α)) (k : String) (v : α) :
    alistGet (alistSet m k v) k = some v := by
  induction m with
  | nil => simp [alistSet, alistGet]
  | cons p rest ih =>
    obtain ⟨k', v'⟩ := p
    by_cases h : k' = k
    · simp [alistSet, alistGet, h]
    · simpa [alistSet, alistGet, h] using ih

/-! ## Anatomy lemmas: `processEncounter` in terms of its named pieces -/

theorem pipelineEncounter_id (s : Store) (e : Encounter) :
    (pipelineEncounter s e).id = e.id := by
  unfold pipelineEncounter
  split <;> rfl

theorem processEncounter_snd (s : Store) (e : Encounter) (now : String) :
    (processEncounter s e now).2 =
      { encounterId := (pipelineEncounter s e).id,
        patientId := pipelinePatientId s e,
        matchResults := pipelineMatchResults s e,
        bestMatch := pipelineBestMatch s e,
        routed := (pipelineDecision s e).1,
        routedTo := if (pipelineDecision s e).1 then pipelinePhysicianRef s e else none,
        taskUpdated := (pipelineBestMatch s e).map (·.taskId),
        reason := (pipelineDecision s e).2 } := rfl

theorem processEncounter_fst (s : Store) (e : Encounter) (now : String) :
    (processEncounter s e now).1 =
      { s with
        encounters := alistSet s.encounters (pipelineEncounter s e).id (pipelineEncounter s e),
        tasks := pipelineTasks s e now,
        routedEvents := pipelineRoutedEvents s e now } := rfl

/-! ## Routed-event upsert lemmas -/

theorem upsertRoutedEvent_cons_hit (e ev : RoutedEvent) (rest : List RoutedEvent)
    (h : e.encounterId = ev.encounterId) :
    upsertRoutedEvent (e :: rest) ev = ev :: rest := by
  unfold upsertRoutedEvent
  rw [List.findIdx?_cons]
  simp [h]

theorem upsertRoutedEvent_cons_miss (e ev : RoutedEvent) (rest : List RoutedEvent)
    (h : ¬ e.encounterId = ev.encounterId) :
    upsertRoutedEvent (e :: rest) ev = e :: upsertRoutedEvent rest ev := by
  unfold upsertRoutedEvent
  rw [List.findIdx?_cons, List.findIdx?_succ]
  cases hidx : rest.findIdx? (fun x => x.encounterId = ev.encounterId) with
  | none => simp [h, hidx]
  | some i => simp [h, hidx]

/-- Upserting an event toggles exactly the presence of its own encounter id:
an event for `eid` is present afterwards iff the new event carries `eid` or
one was present before. -/
theorem any_upsertRoutedEvent (evs : List RoutedEvent) (ev : RoutedEvent) (eid : String) :
    (upsertRoutedEvent evs ev).any (fun x => x.encounterId = eid) =
      (decide (ev.encounterId = eid) || evs.any (fun x => x.encounterId = eid)) := by
  induction evs with
  | nil => simp [upsertRoutedEvent]
  | cons e rest ih =>
    by_cases h : e.encounterId = ev.encounterId
    · rw [upsertRoutedEvent_cons_hit e ev rest h]
      simp only [List.any_cons, h]
      cases hd : decide (ev.encounterId = eid) <;> simp [hd]
    · rw [upsertRoutedEvent_cons_miss e ev rest h]
      simp only [List.any_cons, ih]
      cases hd : decide (ev.encounterId = eid) <;>
        cases hd2 : decide (e.encounterId = eid) <;> simp [hd, hd2]

/-- Single-step effect of `processEncounter` on routed-event presence: a
routed event for `eid` exists afterwards iff this call processed encounter
`eid` and routed it, or one existed before. -/
theorem hasRoutedEvent_processEncounter (s : Store) (e : Encounter) (now : String)
    (eid : String) :
    hasRoutedEvent (processEncounter s e now).1 eid =
      ((decide (e.id = eid) && (processEncounter s e now).2.routed) ||
        hasRoutedEvent s eid) := by
  rw [processEncounter_fst, processEncounter_snd]
  show (pipelineRoutedEvents s e now).any _ = _
  unfold pipelineRoutedEvents
  cases hphys : truthyStr (pipelinePhysicianRef s e) with
  | none =>
    have hpref : pipelinePref s e = none := by unfold pipelinePref; rw [hphys]
    have hdec : (pipelineDecision s e).1 = false := by
      unfold pipelineDecision routingDecision; rw [hpref]
    rw [hdec]
    simp [hasRoutedEvent]
  | some pr =>
    cases hdec : (pipelineDecision s e).1 with
    | false => simp [hasRoutedEvent]
    | true =>
      show (upsertRoutedEvent s.routedEvents _).any _ = _
      rw [any_upsertRoutedEvent]
      simp [hasRoutedEvent, pipelineEncounter_id]

/-! ## Claim C1 -/

unseal Rat.ofScientific Rat.mul Rat.inv Rat.add Rat.sub in
/-- C1 (counterexample): the claimed iff fails. Starting from the seed
store, a finished encounter routes (creating a routed event) and completes
the task; re-delivering the same encounter id then finds no open referral,
so the most recent routing evaluation returns `routed = false` — yet the
routed event for that encounter id is still present. -/
theorem routedEvent_persists_after_unrouted_evaluation :
    (processEncounter (processEncounter fixtureStore fixtureFinished "T1").1
        fixtureFinished "T2").2.routed = false ∧
    hasRoutedEvent
      (processEncounter (processEncounter fixtureStore fixtureFinished "T1").1
        fixtureFinished "T2").1 "enc-2" = true := by
  exact ⟨by decide, by decide⟩

/-- C1 (amended): after any sequence of `processEncounter` calls, a routed
event for an encounter id exists iff one existed before the sequence or at
least one call of the sequence processed that encounter id and decided to
route. (A later evaluation that decides not to route never removes an
existing routed event, so the *most recent* evaluation alone does not
determine presence.) -/
theorem routedEvent_iff_some_call_routed (s : Store) (eid : String)
    (steps : List (Encounter × String)) :
    hasRoutedEvent (processTrace s steps) eid =
      (traceRoutes s eid steps || hasRoutedEvent s eid) := by
  induction steps generalizing s with
  | nil => simp [processTrace, traceRoutes]
  | cons st rest ih =>
    obtain ⟨e, t⟩ := st
    simp only [processTrace, traceRoutes]
    rw [ih, hasRoutedEvent_processEncounter]
    cases decide (e.id = eid) && (processEncounter s e t).2.routed <;>
      cases traceRoutes (processEncounter s e t).1 eid rest <;> simp

/-! ## Claim C2 -/

/-- C2 (confirmed): `advance` (`updateTaskForEncounter`) on a record whose
status is `completed` or `failed` changes nothing at all — in particular
neither status, business-status, output list, nor last-modified. -/
theorem advance_terminal_is_noop (tasks : List (String × Task)) (taskId : String)
    (t : Task) (e : Encounter) (now : String)
    (hget : alistGet tasks taskId = some t)
    (hterm : t.status = "completed" ∨ t.status = "failed") :
    updateTaskForEncounter tasks taskId e now = tasks := by
  unfold updateTaskForEncounter
  rw [hget]
  rcases hterm with h | h <;> simp [h]

/-- Witness for C2 at a concrete completed task. -/
theorem advance_terminal_is_noop_witness :
    updateTaskForEncounter [("task-001", fixtureDoneTask)] "task-001" fixtureEncounter
      "2026-03-01T00:00:00Z" = [("task-001", fixtureDoneTask)] :=
  advance_terminal_is_noop _ _ fixtureDoneTask _ _ rfl (Or.inl rfl)

/-! ## Claim C4 -/

/-- C4 (counterexample): `advance` on a non-terminal record with an
unhandled encounter status ("cancelled") is *not* a complete no-op — the
store changes, because `lastModified` is assigned before the status branch. -/
theorem advance_unhandled_status_touches_lastModified :
    updateTaskForEncounter [("task-001", fixtureTask)] "task-001" fixtureCancelled
      "2026-03-01T00:00:00Z" ≠ [("task-001", fixtureTask)] := by
  decide

/-- C4 (amended): on a non-terminal record and an unhandled encounter status
(e.g. "cancelled", "on-leave"), `advance` leaves status, business-status and
the output list unchanged but *does* set `lastModified` to the current time:
the source assigns `lastModified` on every non-terminal call, no-op branch
included. -/
theorem advance_unhandled_status_only_lastModified (tasks : List (String × Task))
    (taskId : String) (t : Task) (e : Encounter) (now : String)
    (hget : alistGet tasks taskId = some t)
    (hnc : t.status ≠ "completed") (hnf : t.status ≠ "failed")
    (h1 : e.status ≠ "planned") (h2 : e.status ≠ "in-progress") (h3 : e.status ≠ "arrived")
    (h4 : e.status ≠ "triaged") (h5 : e.status ≠ "finished") :
    updateTaskForEncounter tasks taskId e now =
      alistSet tasks taskId { t with lastModified := some now } := by
  unfold updateTaskForEncounter
  rw [hget]
  simp only [hnc, hnf, or_self, if_false, false_or, if_neg]
  unfold applyEncounterToTask
  simp [h1, h2, h3, h4, h5]

/-- Witness for C4's amended theorem at a concrete requested task and a
cancelled encounter. -/
theorem advance_unhandled_status_only_lastModified_witness :
    updateTaskForEncounter [("task-001", fixtureTask)] "task-001" fixtureCancelled
      "2026-03-01T00:00:00Z" =
      alistSet [("task-001", fixtureTask)] "task-001"
        { fixtureTask with lastModified := some "2026-03-01T00:00:00Z" } :=
  advance_unhandled_status_only_lastModified _ _ fixtureTask _ _ rfl
    (by decide) (by decide) (by decide) (by decide) (by decide) (by decide) (by decide)

/-! ## Claim C5 -/

/-- A second sweep with the same `now` leaves every record unchanged and
reports no overdue id: every record surviving the first sweep is either
terminal or not yet past due. -/
theorem checkOverdueTasks_idem (tasks : List (String × Task)) (now : String) :
    checkOverdueTasks (checkOverdueTasks tasks now).1 now =
      ((checkOverdueTasks tasks now).1, []) := by
  induction tasks with
  | nil => simp [checkOverdueTasks]
  | cons p rest ih =>
    obtain ⟨id, task⟩ := p
    simp only [checkOverdueTasks]
    by_cases hterm : task.status = "completed" ∨ task.status = "failed" ∨
        task.status = "cancelled"
    · simp only [if_pos hterm]
      simp only [checkOverdueTasks, if_pos hterm, ih]
    · simp only [if_neg hterm]
      cases hdue : truthyStr ((task.restriction.bind (·.period)).bind (·.«end»)) with
      | none =>
        simp only [checkOverdueTasks, if_neg hterm, hdue, ih]
      | some dueDate =>
        by_cases hlt : strLt dueDate now = true
        · simp only [hlt, if_true, if_pos hlt]
          simp [checkOverdueTasks, ih]
        · simp only [Bool.not_eq_true] at hlt
          simp only [hlt, Bool.false_eq_true, if_false]
          simp only [checkOverdueTasks, if_neg hterm, hdue, hlt, Bool.false_eq_true,
            if_false, ih]

/-- C5 (confirmed): `sweepOverdue` (`checkOverdueTasks`) is idempotent:
right after a call that marked some record overdue, a second call with the
same `now` mutates no record and returns a list that does not contain the
already-failed record's id (indeed it returns the empty list). -/
theorem sweepOverdue_idempotent (tasks : List (String × Task)) (now : String) (id : String)
    (hmarked : id ∈ (checkOverdueTasks tasks now).2) :
    checkOverdueTasks (checkOverdueTasks tasks now).1 now =
      ((checkOverdueTasks tasks now).1, []) ∧
    id ∉ (checkOverdueTasks (checkOverdueTasks tasks now).1 now).2 := by
  refine ⟨checkOverdueTasks_idem tasks now, ?_⟩
  rw [checkOverdueTasks_idem]
  simp

/-- Witness for C5: a requested task whose window ended in 2020, swept in
2026. -/
theorem sweepOverdue_idempotent_witness :
    "task-001" ∈ (checkOverdueTasks [("task-001", fixtureOverdueTask)]
      "2026-05-01T00:00:00Z").2 ∧
    (checkOverdueTasks
        (checkOverdueTasks [("task-001", fixtureOverdueTask)] "2026-05-01T00:00:00Z").1
        "2026-05-01T00:00:00Z" =
      ((checkOverdueTasks [("task-001", fixtureOverdueTask)] "2026-05-01T00:00:00Z").1, []) ∧
     "task-001" ∉ (checkOverdueTasks
        (checkOverdueTasks [("task-001", fixtureOverdueTask)] "2026-05-01T00:00:00Z").1
        "2026-05-01T00:00:00Z").2) :=
  ⟨by decide, sweepOverdue_idempotent _ _ _ (by decide)⟩

/-! ## Claim C7 -/

/-- The Jaccard token similarity is nonnegative. -/
theorem tokenJaccard_nonneg (a b : String) : 0 ≤ tokenJaccard a b := by
  unfold tokenJaccard
  dsimp only
  split
  · exact le_refl 0
  · split
    · exact le_refl 0
    · positivity

/-- The Jaccard token similarity is at most one: the intersection is a
subset of the union. -/
theorem tokenJaccard_le_one (a b : String) : tokenJaccard a b ≤ 1 := by
  unfold tokenJaccard
  dsimp only
  split
  · exact zero_le_one
  · split
    · exact zero_le_one
    · rename_i hcard
      have hsub : ((splitWs a).toFinset.filter (fun x => x ∈ (splitWs b).toFinset)) ⊆
          (splitWs a).toFinset ∪ (splitWs b).toFinset :=
        subset_trans (Finset.filter_subset _ _) Finset.subset_union_left
      have hle := Finset.card_le_card hsub
      have hpos : 0 < (((splitWs a).toFinset ∪ (splitWs b).toFinset).card : ℚ) := by
        have := Nat.pos_of_ne_zero hcard
        exact_mod_cast this
      rw [div_le_one hpos]
      exact_mod_cast hle

/-- C7 (confirmed): `fuzzyNameSimilarity` (`fuzzyNameMatch`) always lies in
`[0,1]`; it is exactly `1.0` on identical inputs; and inputs that differ
only in letter case (equal after lowercasing) also score exactly `1.0`. -/
theorem fuzzyNameMatch_bounds_refl_case (a b c d : String)
    (hcase : jsToLower c = jsToLower d) :
    (0 ≤ fuzzyNameMatch a b ∧ fuzzyNameMatch a b ≤ 1) ∧
    fuzzyNameMatch a a = 1 ∧ fuzzyNameMatch c d = 1 := by
  have hnorm : normalizeName c = normalizeName d := by
    unfold normalizeName
    rw [hcase]
  refine ⟨⟨?_, ?_⟩, ?_, ?_⟩
  · unfold fuzzyNameMatch
    dsimp only
    split
    · norm_num
    · exact le_trans (tokenJaccard_nonneg _ _) (le_max_left _ _)
  · unfold fuzzyNameMatch
    dsimp only
    split
    · norm_num
    · apply max_le (tokenJaccard_le_one _ _)
      split
      · exact le_refl 1
      · have h : (0 : ℚ) ≤ (levenshteinDistance (normalizeName a) (normalizeName b) : ℚ) /
            ((max (normalizeName a).length (normalizeName b).length : ℕ) : ℚ) := by positivity
        linarith
  · unfold fuzzyNameMatch
    norm_num
  · unfold fuzzyNameMatch
    rw [hnorm]
    norm_num

/-- Witness for C7: concrete strings, including the pure-case-change pair
`"ABC"`/`"abc"`. -/
theorem fuzzyNameMatch_bounds_refl_case_witness :
    (0 ≤ fuzzyNameMatch "Valley Cardiology" "Metro Orthopedic Group" ∧
      fuzzyNameMatch "Valley Cardiology" "Metro Orthopedic Group" ≤ 1) ∧
    fuzzyNameMatch "Valley Cardiology" "Valley Cardiology" = 1 ∧
    fuzzyNameMatch "ABC" "abc" = 1 :=
  fuzzyNameMatch_bounds_refl_case _ _ "ABC" "abc" (by decide)

/-! ## Claim C6 -/

theorem mem_insertByScore (x : MatchResult) (l : List MatchResult) (r : MatchResult) :
    r ∈ insertByScore x l ↔ r = x ∨ r ∈ l := by
  induction l with
  | nil => simp [insertByScore]
  | cons y ys ih =>
    unfold insertByScore
    split <;> simp only [List.mem_cons, ih] <;> tauto

theorem mem_foldl_insertByScore (l : List MatchResult) (acc : List MatchResult)
    (r : MatchResult) :
    r ∈ l.foldl (fun acc x => insertByScore x acc) acc ↔ r ∈ acc ∨ r ∈ l := by
  induction l generalizing acc with
  | nil => simp
  | cons x xs ih =>
    simp only [List.foldl_cons]
    rw [ih, mem_insertByScore]
    simp only [List.mem_cons]
    tauto

theorem mem_sortByScoreDesc (l : List MatchResult) (r : MatchResult) :
    r ∈ sortByScoreDesc l ↔ r ∈ l := by
  unfold sortByScoreDesc
  rw [mem_foldl_insertByScore]
  simp

/-- A successful `finishScore` always assigns the tier determined by the
result's own score. -/
theorem finishScore_confidence (srId taskId : String) (score : ℚ)
    (signals : MatchSignals) (r : MatchResult)
    (h : finishScore srId taskId score signals = some r) :
    r.confidence = if r.score ≥ 0.70 then "high"
      else if r.score ≥ 0.40 then "medium" else "low" := by
  unfold finishScore at h
  by_cases h10 : score ≥ 0.10
  · rw [if_pos h10, Option.some_inj] at h
    subst h
    rfl
  · rw [if_neg h10] at h
    exact absurd h (by simp)

/-- C6 (confirmed): the confidence tier of every match result in the
scorer's output is determined exactly by its score: `≥ 0.70 → "high"`,
`[0.40, 0.70) → "medium"`, below `0.40 → "low"`. -/
theorem confidence_tier_matches_score (e : Encounter) (refs : List OpenReferral)
    (ctx : MatchContext) (r : MatchResult)
    (hr : r ∈ matchEncounterToReferrals e refs ctx) :
    r.confidence = if r.score ≥ 0.70 then "high"
      else if r.score ≥ 0.40 then "medium" else "low" := by
  unfold matchEncounterToReferrals at hr
  rcases hsp : e.serviceProvider with _ | sp
  · rw [hsp] at hr
    simp at hr
  · rw [hsp] at hr
    dsimp only at hr
    rw [mem_sortByScoreDesc, List.mem_filterMap] at hr
    obtain ⟨ref, _, hf⟩ := hr
    simp only [scoreReferral] at hf
    by_cases hskip : truthyStr (getTargetIdentifiers ref.serviceRequest).orgNpi = none ∧
        truthyStr (getTargetIdentifiers ref.serviceRequest).orgName = none ∧
        truthyStr (getTargetIdentifiers ref.serviceRequest).practitionerNpi = none
    · rw [if_pos hskip] at hf
      exact absurd hf (by simp)
    · rw [if_neg hskip] at hf
      exact finishScore_confidence _ _ _ _ _ hf

unseal Rat.ofScientific Rat.mul Rat.inv Rat.add Rat.sub in
/-- Witness for C6: the seed fixtures' single match result (score 1,
confidence "high"). -/
theorem confidence_tier_matches_score_witness :
    fixtureMatchResult.confidence =
      if fixtureMatchResult.score ≥ 0.70 then "high"
      else if fixtureMatchResult.score ≥ 0.40 then "medium" else "low" :=
  confidence_tier_matches_score fixtureEncounter
    (getOpenReferrals fixtureStore "patient-001") (buildMatchContext fixtureStore)
    fixtureMatchResult (by decide)

/-! ## Claim C3 -/

theorem pairwise_insertByScore (x : MatchResult) (l : List MatchResult)
    (h : l.Pairwise (fun a b => b.score ≤ a.score)) :
    (insertByScore x l).Pairwise (fun a b => b.score ≤ a.score) := by
  induction l with
  | nil => simp [insertByScore]
  | cons y ys ih =>
    rw [List.pairwise_cons] at h
    obtain ⟨hy, hys⟩ := h
    unfold insertByScore
    split
    · rename_i hle
      rw [List.pairwise_cons]
      refine ⟨?_, ih hys⟩
      intro b hb
      rcases (mem_insertByScore x ys b).1 hb with rfl | hbys
      · exact hle
      · exact hy b hbys
    · rename_i hgt
      push_neg at hgt
      rw [List.pairwise_cons]
      refine ⟨?_, List.Pairwise.cons hy hys⟩
      intro b hb
      rcases List.mem_cons.1 hb with rfl | hbys
      · exact le_of_lt hgt
      · exact le_trans (hy b hbys) (le_of_lt hgt)

theorem pairwise_foldl_insertByScore (l : List MatchResult) (acc : List MatchResult)
    (hacc : acc.Pairwise (fun a b => b.score ≤ a.score)) :
    (l.foldl (fun acc x => insertByScore x acc) acc).Pairwise
      (fun a b => b.score ≤ a.score) := by
  induction l generalizing acc with
  | nil => simpa using hacc
  | cons x xs ih =>
    simp only [List.foldl_cons]
    exact ih _ (pairwise_insertByScore x acc hacc)

/-- The scorer's output is sorted by score, descending. -/
theorem pairwise_sortByScoreDesc (l : List MatchResult) :
    (sortByScoreDesc l).Pairwise (fun a b => b.score ≤ a.score) :=
  pairwise_foldl_insertByScore l [] (by simp)

theorem pairwise_matchResults (e : Encounter) (refs : List OpenReferral)
    (ctx : MatchContext) :
    (matchEncounterToReferrals e refs ctx).Pairwise (fun a b => b.score ≤ a.score) := by
  unfold matchEncounterToReferrals
  rcases e.serviceProvider with _ | sp
  · simp
  · dsimp only
    exact pairwise_sortByScoreDesc _

/-- C3 (confirmed): for a patient with at least one open referral whose
first open referral's requester is `P`, and an active `referrals-only`
sharing preference for `(patient, P)`, the pipeline routes iff the scorer's
top-scoring result exists and its score meets the 0.70 auto-link threshold;
any match scoring below 0.70 behaves exactly like no match. -/
theorem referralsOnly_routed_iff_top_score_high (s : Store) (e : Encounter) (now : String)
    (pid P : String) (p : SharingPreference) (r0 : OpenReferral) (rest : List OpenReferral)
    (hpid : resolvePatientId s (replaceFirst "Patient/" e.subject.reference) = pid)
    (hor : getOpenReferrals s pid = r0 :: rest)
    (hreq : (r0.serviceRequest.requester).map (·.reference) = some P)
    (hP : P ≠ "")
    (hpref : getSharingPreference s pid P = some p)
    (hmode : p.mode = "referrals-only") (hact : p.active = true) :
    ((processEncounter s e now).2.routed = true ↔
      ∃ bm, (processEncounter s e now).2.matchResults.head? = some bm ∧
        bm.score ≥ 0.70 ∧
        ∀ r ∈ (processEncounter s e now).2.matchResults, r.score ≤ bm.score) := by
  rw [processEncounter_snd]
  dsimp only
  have hpid' : pipelinePatientId s e = pid := hpid
  have hphys : pipelinePhysicianRef s e = some P := by
    unfold pipelinePhysicianRef
    rw [hpid', hor]
    exact hreq
  have hpref' : pipelinePref s e = some p := by
    unfold pipelinePref
    rw [hphys]
    simp only [truthyStr, if_neg hP]
    rw [hpid']
    exact hpref
  have hdec : (pipelineDecision s e).1 = (pipelineBestMatch s e).isSome := by
    unfold pipelineDecision routingDecision
    rw [hpref']
    dsimp only
    rw [hact, hmode]
    cases pipelineBestMatch s e <;> simp
  rw [hdec]
  have hsorted : (pipelineMatchResults s e).Pairwise (fun a b => b.score ≤ a.score) :=
    pairwise_matchResults _ _ _
  unfold pipelineBestMatch
  cases hmr : pipelineMatchResults s e with
  | nil => simp
  | cons r rs =>
    rw [hmr] at hsorted
    dsimp only
    constructor
    · intro hbm
      by_cases h70 : r.score ≥ 0.70
      · refine ⟨r, by simp, h70, ?_⟩
        intro x hx
        rcases List.mem_cons.1 hx with rfl | hxs
        · exact le_refl _
        · exact (List.pairwise_cons.1 hsorted).1 x hxs
      · rw [if_neg h70] at hbm
        simp at hbm
    · rintro ⟨bm, hbm, h70, _⟩
      rw [List.head?_cons, Option.some_inj] at hbm
      subst hbm
      rw [if_pos h70]
      rfl

unseal Rat.ofScientific Rat.mul Rat.inv Rat.add Rat.sub in
/-- Witness for C3 on the seed fixtures: the preference is referrals-only,
the encounter matches at score 1, and the pipeline routes. -/
theorem referralsOnly_routed_iff_top_score_high_witness :
    ((processEncounter fixtureStore fixtureEncounter "T0").2.routed = true ↔
      ∃ bm, (processEncounter fixtureStore fixtureEncounter "T0").2.matchResults.head? =
          some bm ∧
        bm.score ≥ 0.70 ∧
        ∀ r ∈ (processEncounter fixtureStore fixtureEncounter "T0").2.matchResults,
          r.score ≤ bm.score) :=
  referralsOnly_routed_iff_top_score_high fixtureStore fixtureEncounter "T0"
    "patient-001" "Practitioner/dr-smith"
    ⟨"patient-001", "Practitioner/dr-smith", "referrals-only", "2026-02-10", true⟩
    fixtureOpenReferral [] rfl rfl rfl (by decide) rfl rfl rfl

/-! ## Claim C8 -/

/-- C8 (confirmed): an encounter without a servicing-organization reference
yields an empty match list, for every open-referral list and lookup context;
the scorer is a total function, so no error is possible. -/
theorem no_serviceProvider_empty_matches (e : Encounter) (refs : List OpenReferral)
    (ctx : MatchContext) (h : e.serviceProvider = none) :
    matchEncounterToReferrals e refs ctx = [] := by
  unfold matchEncounterToReferrals
  rw [h]

/-- Witness for C8: the fixture encounter with its `serviceProvider`
removed. -/
theorem no_serviceProvider_empty_matches_witness :
    matchEncounterToReferrals fixtureNoProvider
      (getOpenReferrals fixtureStore "patient-001") (buildMatchContext fixtureStore) = [] :=
  no_serviceProvider_empty_matches _ _ _ rfl

/-! ## Claim C9 -/

/-- C9 (confirmed): whenever the resolved patient has zero open referrals,
the pipeline reports `routed = false` with reason "No active sharing
preference" and leaves the routed-events store untouched — even when an
active all-encounters preference exists for some provider, because the
referring provider is derived only from the first open referral. -/
theorem no_open_referrals_not_routed (s : Store) (e : Encounter) (now : String)
    (hor : getOpenReferrals s (pipelinePatientId s e) = []) :
    (processEncounter s e now).2.routed = false ∧
    (processEncounter s e now).2.reason = "No active sharing preference" ∧
    (processEncounter s e now).1.routedEvents = s.routedEvents := by
  have hphys : pipelinePhysicianRef s e = none := by
    unfold pipelinePhysicianRef
    rw [hor]
  have hdec : pipelineDecision s e = (false, "No active sharing preference") := by
    unfold pipelineDecision routingDecision pipelinePref
    rw [hphys]
    rfl
  refine ⟨?_, ?_, ?_⟩
  · rw [processEncounter_snd]
    dsimp only
    rw [hdec]
  · rw [processEncounter_snd]
    dsimp only
    rw [hdec]
  · rw [processEncounter_fst]
    show pipelineRoutedEvents s e now = s.routedEvents
    simp only [pipelineRoutedEvents, hdec, hphys]

/-- Witness for C9: a store whose patient has no open referrals but an
active all-encounters preference; the encounter still does not route. -/
theorem no_open_referrals_not_routed_witness :
    (processEncounter fixtureStoreNoReferrals fixtureEncounter "T0").2.routed = false ∧
    (processEncounter fixtureStoreNoReferrals fixtureEncounter "T0").2.reason =
      "No active sharing preference" ∧
    (processEncounter fixtureStoreNoReferrals fixtureEncounter "T0").1.routedEvents =
      fixtureStoreNoReferrals.routedEvents :=
  no_open_referrals_not_routed _ _ _ rfl

/-! ## Claim C10 -/

/-- C10 (confirmed): when canonical-ID resolution changes the subject
patient id, the encounter persisted under its id equals the input on every
field except `subject`, whose value is exactly the bare reference
`Patient/<canonical-id>` — any `display` (or nested identifier) present on
the input subject is dropped. -/
theorem canonicalization_rewrites_subject_only (s : Store) (e : Encounter) (now : String)
    (hchanged : resolvePatientId s (replaceFirst "Patient/" e.subject.reference) ≠
      replaceFirst "Patient/" e.subject.reference) :
    alistGet (processEncounter s e now).1.encounters e.id =
      some { e with subject :=
        { reference := "Patient/" ++
            resolvePatientId s (replaceFirst "Patient/" e.subject.reference),
          display := none, identifier := none } } := by
  rw [processEncounter_fst]
  show alistGet (alistSet s.encounters (pipelineEncounter s e).id (pipelineEncounter s e))
      e.id = _
  have henc : pipelineEncounter s e = { e with subject :=
      { reference := "Patient/" ++
          resolvePatientId s (replaceFirst "Patient/" e.subject.reference),
        display := none, identifier := none } } := by
    unfold pipelineEncounter pipelinePatientId
    rw [if_pos hchanged]
  rw [pipelineEncounter_id, henc]
  exact alistGet_alistSet_self _ _ _

/-- Witness for C10: the broker maps `mercy-a1b2c3d` to `patient-001`; the
encounter delivered under the EHR id is persisted with the canonical
subject and its `subject.display` dropped. -/
theorem canonicalization_rewrites_subject_only_witness :
    alistGet (processEncounter fixtureStoreBroker fixtureEhrEncounter "T0").1.encounters
        fixtureEhrEncounter.id =
      some { fixtureEhrEncounter with subject :=
        { reference := "Patient/" ++ resolvePatientId fixtureStoreBroker
            (replaceFirst "Patient/" fixtureEhrEncounter.subject.reference),
          display := none, identifier := none } } :=
  canonicalization_rewrites_subject_only _ _ _ (by decide)

end Loop
